import Mathlib

/-!
Shallow embedding of the Booking Dispatch Engine of the mecfinder backend:
`src/services/bookingQueue.service.js`, the booking-accept/reject socket
handlers of `src/services/socket.service.js`, and the startup sequence of
`src/index.js`.

Modelling conventions:
* Mongo's `Booking` document is `BookingRecord`; the two `findOneAndUpdate`
  conditional updates (queue path and socket fallback path) are
  `tryAcceptUpdate` and `directAcceptUpdate`, returning `none` when the
  filter does not match (no side effect in that case, as in Mongo).
* The per-booking slice of the service's mutable state (the `activeQueues`
  map entry, the Redis snapshot `booking:queue:<id>`, the Redis marker
  `booking:queue:current:<id>`, the booking document, and the set of armed
  `setTimeout` handles) is `EngineState`.  Timer handles are modelled as
  natural-number ids: `clearTimeout` removes an id from `liveTimers`;
  an id that stays in `liveTimers` while no queue references it is an
  orphaned (still armed) timer.
* Socket emissions are collected in an `Event` list, in emission order.
  Wall-clock values (`Date.now()`, `startedAt`, `acceptedAt`, TTLs) carry
  no dispatch logic and are elided.
-/

/-- Booking `status` values that the dispatch engine reads or writes
(`Booking` model / bookingQueue.service.js). -/
inductive BookingStatus
  | PENDING
  | SEARCHING
  | ACCEPTED
  | NO_MECHANIC_AVAILABLE
  | EN_ROUTE
  | COMPLETED
  | CANCELLED
deriving DecidableEq, Repr

/-- One `statusHistory` entry pushed by the engine's updates. -/
structure HistoryEntry where
  status : BookingStatus
  note : String
deriving DecidableEq, Repr

/-- The External Job Record: the fields of the `Booking` document that the
dispatch engine's conditional updates read and write. -/
structure BookingRecord where
  status : BookingStatus
  mechanicId : Option String
  statusHistory : List HistoryEntry
deriving DecidableEq, Repr

/-- One entry of the queue's mechanic list, as built in `startQueue`
(`{ id, distance, name }`). -/
structure MechanicEntry where
  id : String
  distance : Option Nat
  name : String
deriving DecidableEq, Repr

/-- The `activeQueues` map value: `{ mechanics, currentIndex, timer }`.
`timer` is the handle of the armed `setTimeout`, if any. -/
structure QueueData where
  mechanics : List MechanicEntry
  currentIndex : Nat
  timer : Option Nat
deriving DecidableEq, Repr

/-- The Redis snapshot written by `saveQueueToRedis`
(`{ mechanics, currentIndex, startedAt }`, timestamp elided). -/
structure Snapshot where
  mechanics : List MechanicEntry
  currentIndex : Nat
deriving DecidableEq, Repr

/-- Socket emissions produced by the engine, in order. -/
inductive Event
  | offerToMechanic (mechanicId : String)
  | withdrawFromMechanic (mechanicId : String) (reason : String)
  | cancelledToMechanic (mechanicId : String)
  | userQueueStatus (status : String) (position : Nat) (total : Nat)
  | userAccepted (mechanicId : String)
  | userNoMechanic
  | ackToCaller (success : Bool) (error : Option String)
deriving DecidableEq, Repr

/-- The result object of `handleMechanicAccept`
(`{ success, error }` / `{ success, booking }`). -/
inductive AcceptResult
  | success
  | queueNotFound
  | notYourTurn
  | bookingNoLongerAvailable
deriving DecidableEq, Repr

/-- The per-booking state touched by the engine: the `activeQueues` entry,
the booking document, the two Redis keys, the armed timer handles, the
timer-id supply, and the Redis rejection-analytics log. -/
structure EngineState where
  queue : Option QueueData
  booking : BookingRecord
  snapshot : Option Snapshot
  currentMarker : Option String
  liveTimers : List Nat
  nextTimerId : Nat
  rejectLog : List (String × String)
deriving DecidableEq, Repr

/-- The Acceptance Arbiter of the queue path: `Booking.findOneAndUpdate`
in `handleMechanicAccept` (bookingQueue.service.js:247-268).  Filter:
`status ∈ [PENDING, SEARCHING]` and `mechanicId = null`; update: set
`mechanicId`, `status = ACCEPTED`, push a `statusHistory` audit entry. -/
def tryAcceptUpdate (b : BookingRecord) (mechanicId : String) (note : String) :
    Option BookingRecord :=
  if (b.status = BookingStatus.PENDING ∨ b.status = BookingStatus.SEARCHING)
      ∧ b.mechanicId = none then
    some { b with
           mechanicId := some mechanicId,
           status := BookingStatus.ACCEPTED,
           statusHistory := b.statusHistory ++
             [{ status := BookingStatus.ACCEPTED, note := note }] }
  else
    none

/-- The direct fallback accept: `Booking.findOneAndUpdate` in
`handleBookingAccept` (socket.service.js:253-267).  Same filter as
`tryAcceptUpdate`, but no `statusHistory` push. -/
def directAcceptUpdate (b : BookingRecord) (mechanicId : String) :
    Option BookingRecord :=
  if (b.status = BookingStatus.PENDING ∨ b.status = BookingStatus.SEARCHING)
      ∧ b.mechanicId = none then
    some { b with
           mechanicId := some mechanicId,
           status := BookingStatus.ACCEPTED }
  else
    none

/-- `clearTimeout(handle)`: the handle (if present) stops being armed. -/
def clearTimer (st : EngineState) (t : Option Nat) : EngineState :=
  match t with
  | some id => { st with liveTimers := st.liveTimers.filter (fun x => x ≠ id) }
  | none => st

/-- `startTimeout` (bookingQueue.service.js:146-162): clear the queue's
existing timer, arm a fresh one, store its handle in the queue entry. -/
def startTimeout (st : EngineState) : EngineState :=
  match st.queue with
  | none => st
  | some q =>
    let st1 := clearTimer st q.timer
    { st1 with
      liveTimers := st1.liveTimers ++ [st1.nextTimerId],
      nextTimerId := st1.nextTimerId + 1,
      queue := some { q with timer := some st1.nextTimerId } }

/-- `cleanupQueue` (bookingQueue.service.js:330-341): clear the entry's
timer, delete the map entry and both Redis keys. -/
def cleanupQueue (st : EngineState) : EngineState :=
  let st1 := match st.queue with
             | some q => clearTimer st q.timer
             | none => st
  { st1 with queue := none, snapshot := none, currentMarker := none }

/-- `handleNoMechanicsAvailable` (bookingQueue.service.js:300-325):
unconditional `findByIdAndUpdate` to `NO_MECHANIC_AVAILABLE` with a history
push, `booking:no-mechanic` to the user, then `cleanupQueue`. -/
def handleNoMechanicsAvailable (st : EngineState) : EngineState × List Event :=
  let b := { st.booking with
             status := BookingStatus.NO_MECHANIC_AVAILABLE,
             statusHistory := st.booking.statusHistory ++
               [{ status := BookingStatus.NO_MECHANIC_AVAILABLE,
                  note := "No mechanics available or all declined" }] }
  let st1 := cleanupQueue { st with booking := b }
  (st1, [Event.userNoMechanic])

/-- `sendToNextMechanic` (bookingQueue.service.js:76-141): no-op if the
queue entry is gone; exhaustion if `currentIndex >= mechanics.length`;
otherwise emit `booking:new` to the current mechanic only, write the
`booking:queue:current` marker, arm the timeout, and send the user a
`booking:queue-status` progress event. -/
def sendToNextMechanic (st : EngineState) : EngineState × List Event :=
  match st.queue with
  | none => (st, [])
  | some q =>
    if q.mechanics.length ≤ q.currentIndex then
      handleNoMechanicsAvailable st
    else
      match q.mechanics.get? q.currentIndex with
      | none => (st, [])
      | some m =>
        let st1 := startTimeout { st with currentMarker := some m.id }
        (st1, [Event.offerToMechanic m.id,
               Event.userQueueStatus "REQUESTING" (q.currentIndex + 1)
                 q.mechanics.length])

/-- `startQueue` (bookingQueue.service.js:30-71): empty candidate list goes
straight to `handleNoMechanicsAvailable`; otherwise the `activeQueues`
entry is set (unconditionally — there is no check for an already-active
queue), the snapshot is written, the first mechanic is offered, and the
user receives the initial `SEARCHING` status event. -/
def startQueue (st : EngineState) (nearbyMechanics : List MechanicEntry) :
    EngineState × List Event :=
  if nearbyMechanics.length = 0 then
    handleNoMechanicsAvailable st
  else
    let q : QueueData :=
      { mechanics := nearbyMechanics, currentIndex := 0, timer := none }
    let st1 := { st with
                 queue := some q,
                 snapshot := some { mechanics := nearbyMechanics,
                                    currentIndex := 0 } }
    let out := sendToNextMechanic st1
    (out.1, out.2 ++
      [Event.userQueueStatus "SEARCHING" 1 nearbyMechanics.length])

/-- `skipToNextMechanic` (bookingQueue.service.js:194-222): clear the
timer, notify the just-skipped current mechanic (`booking:timeout`),
increment `currentIndex`, persist the snapshot, recurse into
`sendToNextMechanic`. -/
def skipToNextMechanic (st : EngineState) (reason : String) :
    EngineState × List Event :=
  match st.queue with
  | none => (st, [])
  | some q =>
    let st1 := clearTimer st q.timer
    let withdrawEvs :=
      match q.mechanics.get? q.currentIndex with
      | some m =>
        [Event.withdrawFromMechanic m.id
          (if reason = "timeout" then "Time expired"
           else "Moved to next mechanic")]
      | none => []
    let q2 := { q with timer := none, currentIndex := q.currentIndex + 1 }
    let st2 := { st1 with
                 queue := some q2,
                 snapshot := some { mechanics := q2.mechanics,
                                    currentIndex := q2.currentIndex } }
    let out := sendToNextMechanic st2
    (out.1, withdrawEvs ++ out.2)

/-- `handleMechanicReject` (bookingQueue.service.js:167-189): no queue or
non-current mechanic is a silent no-op; otherwise log the rejection to
Redis and skip to the next mechanic. -/
def handleMechanicReject (st : EngineState) (mechanicId reason : String) :
    EngineState × List Event :=
  match st.queue with
  | none => (st, [])
  | some q =>
    match q.mechanics.get? q.currentIndex with
    | none => (st, [])
    | some m =>
      if m.id = mechanicId then
        skipToNextMechanic
          { st with rejectLog := st.rejectLog ++ [(mechanicId, reason)] }
          reason
      else
        (st, [])

/-- The `setTimeout` callback armed by `startTimeout`: if the handle is
still armed it fires (spending the handle) and calls
`skipToNextMechanic(bookingId, 'timeout')`; a cancelled handle never
fires. -/
def fireTimer (st : EngineState) (t : Nat) : EngineState × List Event :=
  if t ∈ st.liveTimers then
    skipToNextMechanic
      { st with liveTimers := st.liveTimers.filter (fun x => x ≠ t) }
      "timeout"
  else
    (st, [])

/-- `handleMechanicAccept` (bookingQueue.service.js:227-295): queue gone ⇒
`Queue not found`; non-current mechanic ⇒ `Not your turn to accept` with
no state change; otherwise clear the timer and run the Arbiter's
conditional update; on mismatch return `Booking no longer available`
(cursor untouched); on success notify the user, send `booking:cancelled`
to every not-yet-offered mechanic, and clean up the queue. -/
def handleMechanicAccept (st : EngineState) (mechanicId : String) :
    EngineState × List Event × AcceptResult :=
  match st.queue with
  | none => (st, [], AcceptResult.queueNotFound)
  | some q =>
    match q.mechanics.get? q.currentIndex with
    | none => (st, [], AcceptResult.notYourTurn)
    | some m =>
      if m.id = mechanicId then
        let st1 := clearTimer st q.timer
        let note := "Accepted by mechanic via queue (position " ++
          toString (q.currentIndex + 1) ++ "/" ++
          toString q.mechanics.length ++ ")"
        match tryAcceptUpdate st1.booking mechanicId note with
        | none => (st1, [], AcceptResult.bookingNoLongerAvailable)
        | some b =>
          let cancelEvs := (q.mechanics.drop (q.currentIndex + 1)).map
            (fun mm => Event.cancelledToMechanic mm.id)
          let st2 := cleanupQueue { st1 with booking := b }
          (st2, Event.userAccepted mechanicId :: cancelEvs,
            AcceptResult.success)
      else
        (st, [], AcceptResult.notYourTurn)

/-- `handleBookingAccept` (socket.service.js:239-286): delegate to the
queue service; on success ack success.  On ANY failure result (the guard
is `if (result.success)` with a bare `else`, so `Not your turn to accept`
and `Booking no longer available` fall through too, not only
`Queue not found`) run the direct fallback `findOneAndUpdate`; ack
according to its outcome. -/
def handleBookingAccept (st : EngineState) (mechanicId : String) :
    EngineState × List Event :=
  let out := handleMechanicAccept st mechanicId
  match out.2.2 with
  | AcceptResult.success =>
    (out.1, out.2.1 ++ [Event.ackToCaller true none])
  | _ =>
    match directAcceptUpdate out.1.booking mechanicId with
    | none =>
      (out.1, out.2.1 ++
        [Event.ackToCaller false (some "Booking no longer available")])
    | some b =>
      ({ out.1 with booking := b },
       out.2.1 ++ [Event.userAccepted mechanicId,
                   Event.ackToCaller true none])

/-- Per-snapshot body of `restoreQueues` (bookingQueue.service.js:368-404)
for one booking: if the fetched booking still shows `SEARCHING`, rebuild
the `activeQueues` entry from the snapshot (same `currentIndex`, no timer)
and resume via `sendToNextMechanic`; otherwise do nothing. -/
def restoreQueue (st : EngineState) (snap : Snapshot) :
    EngineState × List Event :=
  if st.booking.status = BookingStatus.SEARCHING then
    sendToNextMechanic
      { st with queue := some { mechanics := snap.mechanics,
                                currentIndex := snap.currentIndex,
                                timer := none } }
  else
    (st, [])

/-- The startup actions of `startServer` (src/index.js:111-146), in
order.  `restoreQueuesStep` stands for a call to
`bookingQueueService.restoreQueues()`. -/
inductive StartupStep
  | connectMongo
  | connectRedis
  | initializeSocketServer
  | listenHttp
  | restoreQueuesStep
deriving DecidableEq, Repr

/-- `startServer` (src/index.js:111-146) performs exactly: Mongo connect,
Redis connect, socket server initialisation, HTTP listen.  No call to
`restoreQueues` appears there (nor anywhere else in the repository). -/
def startServerSteps : List StartupStep :=
  [StartupStep.connectMongo, StartupStep.connectRedis,
   StartupStep.initializeSocketServer, StartupStep.listenHttp]

/-- The mechanics that receive a `booking:new` offer in an event list. -/
def offerTargets : List Event → List String
  | [] => []
  | Event.offerToMechanic m :: rest => m :: offerTargets rest
  | _ :: rest => offerTargets rest

/-- A sequence of accept attempts against one booking record, each via the
queue-path update (`true`) or the fallback update (`false`), threading the
record through and counting how many conditional updates matched. -/
def runAcceptAttempts :
    BookingRecord → List (Bool × String × String) → BookingRecord × Nat
  | b, [] => (b, 0)
  | b, (viaQueue, w, note) :: rest =>
    match (if viaQueue then tryAcceptUpdate b w note
           else directAcceptUpdate b w) with
    | some b1 =>
      let out := runAcceptAttempts b1 rest
      (out.1, out.2 + 1)
    | none => runAcceptAttempts b rest

/-- State part of one advance (`skipToNextMechanic` with the timeout
reason), used to iterate advances. -/
def skipState (st : EngineState) : EngineState :=
  (skipToNextMechanic st "timeout").1

/-- Iterated advances. -/
def skipIter : Nat → EngineState → EngineState
  | 0, st => st
  | n + 1, st => skipIter n (skipState st)

/-! ### Arbiter lemmas -/

theorem tryAcceptUpdate_some_iff (b : BookingRecord) (w note : String)
    (b1 : BookingRecord) (h : tryAcceptUpdate b w note = some b1) :
    b1.status = BookingStatus.ACCEPTED ∧ b1.mechanicId = some w ∧
    (b.status = BookingStatus.PENDING ∨ b.status = BookingStatus.SEARCHING) ∧
    b.mechanicId = none := by
  unfold tryAcceptUpdate at h
  split at h
  · rename_i hc
    cases h
    exact ⟨rfl, rfl, hc.1, hc.2⟩
  · exact absurd h (by simp)

theorem directAcceptUpdate_some_iff (b : BookingRecord) (w : String)
    (b1 : BookingRecord) (h : directAcceptUpdate b w = some b1) :
    b1.status = BookingStatus.ACCEPTED ∧ b1.mechanicId = some w ∧
    (b.status = BookingStatus.PENDING ∨ b.status = BookingStatus.SEARCHING) ∧
    b.mechanicId = none := by
  unfold directAcceptUpdate at h
  split at h
  · rename_i hc
    cases h
    exact ⟨rfl, rfl, hc.1, hc.2⟩
  · exact absurd h (by simp)

theorem tryAcceptUpdate_none_of_assigned (b : BookingRecord) (x : String)
    (hb : b.mechanicId = some x) (w note : String) :
    tryAcceptUpdate b w note = none := by
  unfold tryAcceptUpdate
  rw [if_neg]
  intro hc
  rw [hb] at hc
  exact Option.noConfusion hc.2

theorem directAcceptUpdate_none_of_assigned (b : BookingRecord) (x : String)
    (hb : b.mechanicId = some x) (w : String) :
    directAcceptUpdate b w = none := by
  unfold directAcceptUpdate
  rw [if_neg]
  intro hc
  rw [hb] at hc
  exact Option.noConfusion hc.2

theorem tryAcceptUpdate_none_of_unmatched (b : BookingRecord) (w note : String)
    (h : b.mechanicId ≠ none ∨
      (b.status ≠ BookingStatus.PENDING ∧ b.status ≠ BookingStatus.SEARCHING)) :
    tryAcceptUpdate b w note = none := by
  unfold tryAcceptUpdate
  rw [if_neg]
  intro hc
  rcases h with h1 | h2
  · exact h1 hc.2
  · rcases hc.1 with hp | hs
    · exact h2.1 hp
    · exact h2.2 hs

theorem runAcceptAttempts_assigned (x : String) :
    ∀ (l : List (Bool × String × String)) (b : BookingRecord),
      b.mechanicId = some x → runAcceptAttempts b l = (b, 0) := by
  intro l
  induction l with
  | nil => intro b _; rfl
  | cons a rest ih =>
    intro b hb
    obtain ⟨viaQ, w, note⟩ := a
    have h1 : tryAcceptUpdate b w note = none :=
      tryAcceptUpdate_none_of_assigned b x hb w note
    have h2 : directAcceptUpdate b w = none :=
      directAcceptUpdate_none_of_assigned b x hb w
    unfold runAcceptAttempts
    cases viaQ <;> simp only [if_true, if_false, Bool.false_eq_true, ite_false,
      ite_true, h1, h2] <;> exact ih b hb

theorem runAcceptAttempts_le_one :
    ∀ (l : List (Bool × String × String)) (b : BookingRecord),
      (runAcceptAttempts b l).2 ≤ 1 := by
  intro l
  induction l with
  | nil => intro b; simp [runAcceptAttempts]
  | cons a rest ih =>
    intro b
    obtain ⟨viaQ, w, note⟩ := a
    unfold runAcceptAttempts
    cases hu : (if viaQ then tryAcceptUpdate b w note else directAcceptUpdate b w) with
    | none => simpa using ih b
    | some b1 =>
      have hb1 : b1.mechanicId = some w := by
        cases viaQ with
        | true =>
          simp only [if_true, ite_true] at hu
          exact (tryAcceptUpdate_some_iff b w note b1 hu).2.1
        | false =>
          simp only [Bool.false_eq_true, if_false, ite_false] at hu
          exact (directAcceptUpdate_some_iff b w b1 hu).2.1
      have hz := runAcceptAttempts_assigned w rest b1 hb1
      simp only []
      rw [hz]

/-- Claim C1: the acceptance is resolved by one conditional update that
sets `status = ACCEPTED` and the assigned mechanic only when the record's
status is PENDING or SEARCHING and its mechanic is unset; once an accept
attempt has succeeded, every later attempt via the queue-path update or
the direct fallback update fails, so any sequence of accept attempts has
at most one success. -/
theorem accept_at_most_one
    (b : BookingRecord) (w note : String) (b1 : BookingRecord)
    (h : tryAcceptUpdate b w note = some b1) :
    b1.status = BookingStatus.ACCEPTED ∧ b1.mechanicId = some w ∧
    (b.status = BookingStatus.PENDING ∨ b.status = BookingStatus.SEARCHING) ∧
    b.mechanicId = none ∧
    (∀ w2 note2, tryAcceptUpdate b1 w2 note2 = none ∧
      directAcceptUpdate b1 w2 = none) ∧
    (∀ (b0 : BookingRecord) (l : List (Bool × String × String)),
      (runAcceptAttempts b0 l).2 ≤ 1) := by
  obtain ⟨h1, h2, h3, h4⟩ := tryAcceptUpdate_some_iff b w note b1 h
  refine ⟨h1, h2, h3, h4, ?_, ?_⟩
  · intro w2 note2
    exact ⟨tryAcceptUpdate_none_of_assigned b1 w h2 w2 note2,
           directAcceptUpdate_none_of_assigned b1 w h2 w2⟩
  · intro b0 l
    exact runAcceptAttempts_le_one l b0

/-- Witness for `accept_at_most_one`: a SEARCHING, unassigned record
accepted by mechanic `A`. -/
theorem accept_at_most_one_witness :
    tryAcceptUpdate
      { status := BookingStatus.SEARCHING, mechanicId := none,
        statusHistory := [] } "A" "n" =
      some { status := BookingStatus.ACCEPTED, mechanicId := some "A",
             statusHistory := [{ status := BookingStatus.ACCEPTED,
                                 note := "n" }] } ∧
    ({ status := BookingStatus.ACCEPTED, mechanicId := some "A",
       statusHistory := [{ status := BookingStatus.ACCEPTED, note := "n" }] }
         : BookingRecord).status = BookingStatus.ACCEPTED := by
  refine ⟨by decide, ?_⟩
  exact (accept_at_most_one
    { status := BookingStatus.SEARCHING, mechanicId := none,
      statusHistory := [] } "A" "n" _ (by decide)).1

/-- Claim C7: starting the queue with an empty candidate list immediately
produces the no-mechanic terminal outcome: no queue entry is created, no
offer is sent to any mechanic, the booking is marked
`NO_MECHANIC_AVAILABLE`, and the requester is notified. -/
theorem empty_candidates_immediate_exhaustion (st : EngineState) :
    (startQueue st []).1.queue = none ∧
    offerTargets (startQueue st []).2 = [] ∧
    (startQueue st []).1.booking.status =
      BookingStatus.NO_MECHANIC_AVAILABLE ∧
    Event.userNoMechanic ∈ (startQueue st []).2 := by
  unfold startQueue handleNoMechanicsAvailable cleanupQueue
  cases hq : st.queue with
  | none => simp [offerTargets, clearTimer]
  | some q =>
    cases ht : q.timer with
    | none => simp [offerTargets, clearTimer, hq, ht]
    | some t => simp [offerTargets, clearTimer, hq, ht]

/-! ### Characterisation lemmas for the queue operations -/

theorem sendToNextMechanic_noQueue (st : EngineState) (hq : st.queue = none) :
    sendToNextMechanic st = (st, []) := by
  unfold sendToNextMechanic
  rw [hq]

theorem sendToNextMechanic_exhausted (st : EngineState) (q : QueueData)
    (hq : st.queue = some q) (hlen : q.mechanics.length ≤ q.currentIndex) :
    sendToNextMechanic st = handleNoMechanicsAvailable st := by
  unfold sendToNextMechanic
  simp only [hq]
  rw [if_pos hlen]

theorem sendToNextMechanic_offer (st : EngineState) (q : QueueData)
    (m : MechanicEntry) (hq : st.queue = some q)
    (hm : q.mechanics.get? q.currentIndex = some m) :
    sendToNextMechanic st =
      (startTimeout { st with currentMarker := some m.id },
       [Event.offerToMechanic m.id,
        Event.userQueueStatus "REQUESTING" (q.currentIndex + 1)
          q.mechanics.length]) := by
  have hlt : q.currentIndex < q.mechanics.length := by
    by_contra hc
    rw [List.get?_eq_none.mpr (Nat.le_of_not_lt hc)] at hm
    exact Option.noConfusion hm
  unfold sendToNextMechanic
  simp only [hq]
  rw [if_neg (Nat.not_le.mpr hlt)]
  simp only [hm]

theorem startTimeout_fresh (st : EngineState) (q : QueueData)
    (hq : st.queue = some q) (ht : q.timer = none) :
    startTimeout st = { st with
      liveTimers := st.liveTimers ++ [st.nextTimerId],
      nextTimerId := st.nextTimerId + 1,
      queue := some { q with timer := some st.nextTimerId } } := by
  unfold startTimeout
  simp only [hq, ht, clearTimer]

theorem handleNoMechanicsAvailable_spec (st : EngineState) :
    (handleNoMechanicsAvailable st).1.queue = none ∧
    (handleNoMechanicsAvailable st).1.snapshot = none ∧
    (handleNoMechanicsAvailable st).1.booking.status =
      BookingStatus.NO_MECHANIC_AVAILABLE ∧
    (handleNoMechanicsAvailable st).2 = [Event.userNoMechanic] := by
  unfold handleNoMechanicsAvailable cleanupQueue
  cases hq : st.queue with
  | none => simp [clearTimer, hq]
  | some q =>
    cases ht : q.timer with
    | none => simp [clearTimer, hq, ht]
    | some t => simp [clearTimer, hq, ht]

theorem offerTargets_of_offer (m : String) (s : String) (p t : Nat) :
    offerTargets [Event.offerToMechanic m, Event.userQueueStatus s p t] =
      [m] := by
  simp [offerTargets]

/-- Claim C2: an offer round (`sendToNextMechanic`) sends the
`booking:new` notification to exactly the candidate at the current cursor
position and to no other candidate: at most one offer is emitted, the
offer goes to `mechanics[currentIndex]` when that position exists, and no
offer is emitted when the queue is exhausted. -/
theorem exclusive_offer (st : EngineState) (q : QueueData)
    (hq : st.queue = some q) :
    (offerTargets (sendToNextMechanic st).2).length ≤ 1 ∧
    (∀ m, q.mechanics.get? q.currentIndex = some m →
      offerTargets (sendToNextMechanic st).2 = [m.id]) ∧
    (q.mechanics.length ≤ q.currentIndex →
      offerTargets (sendToNextMechanic st).2 = []) := by
  by_cases hlen : q.mechanics.length ≤ q.currentIndex
  · rw [sendToNextMechanic_exhausted st q hq hlen]
    rw [(handleNoMechanicsAvailable_spec st).2.2.2]
    refine ⟨by simp [offerTargets], ?_, fun _ => by simp [offerTargets]⟩
    intro m hm
    rw [List.get?_eq_none.mpr hlen] at hm
    exact Option.noConfusion hm
  · have hlt := Nat.lt_of_not_le hlen
    obtain ⟨m, hm⟩ : ∃ m, q.mechanics.get? q.currentIndex = some m := by
      cases hg : q.mechanics.get? q.currentIndex with
      | none => exact absurd (List.get?_eq_none.mp hg) hlen
      | some m => exact ⟨m, rfl⟩
    rw [sendToNextMechanic_offer st q m hq hm]
    refine ⟨by simp [offerTargets_of_offer], ?_, ?_⟩
    · intro m2 hm2
      rw [hm] at hm2
      cases hm2
      exact offerTargets_of_offer m.id "REQUESTING" (q.currentIndex + 1)
        q.mechanics.length
    · intro hc
      exact absurd hc hlen

/-! ### Concrete example states used by witnesses and counterexamples -/

/-- Example mechanic `A`. -/
def exMechA : MechanicEntry := { id := "A", distance := some 2, name := "Alice" }

/-- Example mechanic `B`. -/
def exMechB : MechanicEntry := { id := "B", distance := some 3, name := "Bob" }

/-- Example mechanic `C`. -/
def exMechC : MechanicEntry := { id := "C", distance := none, name := "Cara" }

/-- A booking still searching, not yet assigned. -/
def exBookingSearching : BookingRecord :=
  { status := BookingStatus.SEARCHING, mechanicId := none, statusHistory := [] }

/-- Active queue `[A, B]` with the cursor on `A` and timer `0` armed. -/
def exQueueAB : QueueData :=
  { mechanics := [exMechA, exMechB], currentIndex := 0, timer := some 0 }

/-- Engine state as left by `startQueue` for candidates `[A, B]` on a
searching booking. -/
def exStateAB : EngineState :=
  { queue := some exQueueAB,
    booking := exBookingSearching,
    snapshot := some { mechanics := [exMechA, exMechB], currentIndex := 0 },
    currentMarker := some "A",
    liveTimers := [0],
    nextTimerId := 1,
    rejectLog := [] }

/-- Witness for `exclusive_offer`: on the live `[A, B]` state the offer
round targets exactly mechanic `A`. -/
theorem exclusive_offer_witness :
    exStateAB.queue = some exQueueAB ∧
    offerTargets (sendToNextMechanic exStateAB).2 = ["A"] := by
  refine ⟨rfl, ?_⟩
  exact (exclusive_offer exStateAB exQueueAB rfl).2.1 exMechA (by decide)

/-! ### Projection lemmas for clearTimer -/

theorem clearTimer_queue (st : EngineState) (t : Option Nat) :
    (clearTimer st t).queue = st.queue := by
  cases t <;> rfl

theorem clearTimer_booking (st : EngineState) (t : Option Nat) :
    (clearTimer st t).booking = st.booking := by
  cases t <;> rfl

theorem clearTimer_nextTimerId (st : EngineState) (t : Option Nat) :
    (clearTimer st t).nextTimerId = st.nextTimerId := by
  cases t <;> rfl

/-! ### Further example states -/

/-- A booking already taken by mechanic `Z` (another path won the race). -/
def exBookingTaken : BookingRecord :=
  { status := BookingStatus.ACCEPTED, mechanicId := some "Z",
    statusHistory := [] }

/-- Active queue `[A]` with the cursor on `A` and timer `0` armed. -/
def exQueueA : QueueData :=
  { mechanics := [exMechA], currentIndex := 0, timer := some 0 }

/-- Live dispatch state for `[A]` whose booking was already claimed by
`Z` through another path. -/
def exStateTaken : EngineState :=
  { queue := some exQueueA,
    booking := exBookingTaken,
    snapshot := some { mechanics := [exMechA], currentIndex := 0 },
    currentMarker := some "A",
    liveTimers := [0],
    nextTimerId := 1,
    rejectLog := [] }

/-- Claim C3 is violated by the code: with queue `[A, B]` and the cursor
on `A`, a stale accept from `B` is answered `Not your turn to accept` by
the queue service, but the socket handler's fallback branch (taken on any
failure result, not only `Queue not found`) then runs the direct
conditional update, which matches: the booking ends `ACCEPTED` with
mechanic `B` and `B` receives a success acknowledgement — the stale
attempt does reach the Arbiter and succeeds. -/
theorem stale_accept_reaches_arbiter :
    (handleMechanicAccept exStateAB "B").2.2 = AcceptResult.notYourTurn ∧
    (handleMechanicAccept exStateAB "B").1 = exStateAB ∧
    (handleBookingAccept exStateAB "B").1.booking.status =
      BookingStatus.ACCEPTED ∧
    (handleBookingAccept exStateAB "B").1.booking.mechanicId = some "B" ∧
    Event.ackToCaller true none ∈ (handleBookingAccept exStateAB "B").2 := by
  decide

/-- Counterexample to claim C4: when the current candidate `A` accepts but
the conditional update does not match (booking already taken by `Z`),
`handleMechanicAccept` does NOT advance the cursor — the queue entry is
left exactly as it was (cursor still `0`) and no further dispatch event is
emitted; the call just returns the `Booking no longer available`
failure. -/
theorem arbiter_loss_no_advance_cex :
    (handleMechanicAccept exStateTaken "A").2.2 =
      AcceptResult.bookingNoLongerAvailable ∧
    (handleMechanicAccept exStateTaken "A").1.queue = some exQueueA ∧
    (handleMechanicAccept exStateTaken "A").2.1 = [] := by
  decide

/-- Claim C4 as amended: whenever the Arbiter's conditional update does
not match for the current candidate, `handleMechanicAccept` returns the
`Booking no longer available` failure and leaves the dispatch state
unchanged — the cursor is not incremented, no candidate is offered, the
booking is untouched; the accept is not retried. -/
theorem arbiter_loss_returns_failure (st : EngineState) (q : QueueData)
    (m : MechanicEntry) (hq : st.queue = some q)
    (hm : q.mechanics.get? q.currentIndex = some m)
    (hguard : st.booking.mechanicId ≠ none ∨
      (st.booking.status ≠ BookingStatus.PENDING ∧
       st.booking.status ≠ BookingStatus.SEARCHING)) :
    (handleMechanicAccept st m.id).2.2 =
      AcceptResult.bookingNoLongerAvailable ∧
    (handleMechanicAccept st m.id).1.queue = some q ∧
    (handleMechanicAccept st m.id).1.booking = st.booking ∧
    (handleMechanicAccept st m.id).2.1 = [] := by
  have hnone : ∀ note, tryAcceptUpdate (clearTimer st q.timer).booking m.id
      note = none := by
    intro note
    rw [clearTimer_booking]
    exact tryAcceptUpdate_none_of_unmatched st.booking m.id note hguard
  unfold handleMechanicAccept
  simp only [hq, hm]
  rw [if_pos trivial]
  simp only [hnone]
  simp [clearTimer_queue, clearTimer_booking, hq]

/-- Witness for `arbiter_loss_returns_failure`: the `[A]` queue over a
booking already claimed by `Z`. -/
theorem arbiter_loss_returns_failure_witness :
    exStateTaken.queue = some exQueueA ∧
    (handleMechanicAccept exStateTaken exMechA.id).1.booking =
      exStateTaken.booking := by
  refine ⟨rfl, ?_⟩
  exact (arbiter_loss_returns_failure exStateTaken exQueueA exMechA rfl
    (by decide) (Or.inl (by decide))).2.2.1

/-! ### Claim C5: duplicate startQueue -/

/-- Live dispatch state mid-queue: `[A, B]` with the cursor already on
`B` and timer `0` armed. -/
def exStateMid : EngineState :=
  { queue := some { mechanics := [exMechA, exMechB], currentIndex := 1,
                    timer := some 0 },
    booking := exBookingSearching,
    snapshot := some { mechanics := [exMechA, exMechB], currentIndex := 1 },
    currentMarker := some "B",
    liveTimers := [0],
    nextTimerId := 1,
    rejectLog := [] }

/-- Counterexample to claim C5: calling `startQueue` again for a booking
that already has an active queue is neither rejected nor ignored — the
existing queue entry (cursor `1` over `[A, B]`) is replaced by a fresh one
(cursor `0` over `[C]`, new timer `1`), while the old timer `0` stays
armed with no queue entry referencing it (orphaned). -/
theorem double_start_replaces_queue_cex :
    (startQueue exStateMid [exMechC]).1.queue =
      some { mechanics := [exMechC], currentIndex := 0, timer := some 1 } ∧
    (startQueue exStateMid [exMechC]).1.queue ≠ exStateMid.queue ∧
    0 ∈ (startQueue exStateMid [exMechC]).1.liveTimers ∧
    (startQueue exStateMid [exMechC]).1.queue ≠
      some { mechanics := [exMechC], currentIndex := 0, timer := some 0 } := by
  decide

/-- Claim C5 as amended: `startQueue` performs no active-queue check — a
second call for the same booking with a non-empty candidate list
unconditionally installs a fresh DispatchJob (the new candidate list,
cursor `0`, a freshly armed timer), and an armed timer of the previous
queue entry remains armed (orphaned) rather than being cancelled. -/
theorem start_overwrites_active_queue (st : EngineState)
    (ms : List MechanicEntry) (h : ms ≠ []) (q0 : QueueData) (t : Nat)
    (hq : st.queue = some q0) (ht : q0.timer = some t)
    (hlive : t ∈ st.liveTimers) :
    (startQueue st ms).1.queue =
      some { mechanics := ms, currentIndex := 0,
             timer := some st.nextTimerId } ∧
    t ∈ (startQueue st ms).1.liveTimers := by
  obtain ⟨m0, ms', rfl⟩ : ∃ m0 ms', ms = m0 :: ms' := by
    cases ms with
    | nil => exact absurd rfl h
    | cons a l => exact ⟨a, l, rfl⟩
  have hsend := sendToNextMechanic_offer
    { st with queue := some { mechanics := m0 :: ms', currentIndex := 0,
                              timer := none },
              snapshot := some { mechanics := m0 :: ms',
                                 currentIndex := 0 } }
    { mechanics := m0 :: ms', currentIndex := 0, timer := none } m0 rfl rfl
  have htmr := startTimeout_fresh
    { st with queue := some { mechanics := m0 :: ms', currentIndex := 0,
                              timer := none },
              snapshot := some { mechanics := m0 :: ms',
                                 currentIndex := 0 },
              currentMarker := some m0.id }
    { mechanics := m0 :: ms', currentIndex := 0, timer := none } rfl rfl
  unfold startQueue
  rw [if_neg (by simp)]
  simp only [hsend, htmr]
  simp [hlive]

/-- Witness for `start_overwrites_active_queue`: restarting the mid-queue
`[A, B]` state with candidate list `[C]`. -/
theorem start_overwrites_active_queue_witness :
    exStateMid.queue =
      some { mechanics := [exMechA, exMechB], currentIndex := 1,
             timer := some 0 } ∧
    0 ∈ (startQueue exStateMid [exMechC]).1.liveTimers := by
  refine ⟨rfl, ?_⟩
  exact (start_overwrites_active_queue exStateMid [exMechC] (by decide)
    { mechanics := [exMechA, exMechB], currentIndex := 1, timer := some 0 }
    0 rfl rfl (by decide)).2

/-! ### Claim C6: recovery pass -/

/-- A bare state for a searching booking with no in-memory queue (as after
a process restart). -/
def exStateBare : EngineState :=
  { queue := none,
    booking := exBookingSearching,
    snapshot := some { mechanics := [exMechA, exMechB], currentIndex := 1 },
    currentMarker := none,
    liveTimers := [],
    nextTimerId := 5,
    rejectLog := [] }

/-- The persisted snapshot of the `[A, B]` queue at cursor `1`. -/
def exSnapshotAt1 : Snapshot :=
  { mechanics := [exMechA, exMechB], currentIndex := 1 }

/-- `exStateBare` with the booking already resolved elsewhere. -/
def exStateResolved : EngineState :=
  { exStateBare with booking := exBookingTaken }

/-- Claim C6 concerns a code bug: the recovery logic (`restoreQueues`)
exists and, per snapshot, would behave as claimed — restoring a
`SEARCHING` booking's queue at the persisted cursor (offering only to the
candidate at the cursor, here `B`, never to the already-skipped `A`) and
discarding a no-longer-`SEARCHING` snapshot without action — but
`startServer` (src/index.js) never invokes it, and no other call site
exists, so no recovery pass runs on process startup. -/
theorem startup_has_no_recovery_pass :
    StartupStep.restoreQueuesStep ∉ startServerSteps ∧
    offerTargets (restoreQueue exStateBare exSnapshotAt1).2 = ["B"] ∧
    restoreQueue exStateResolved exSnapshotAt1 = (exStateResolved, []) := by
  decide

/-! ### Characterisation of skipToNextMechanic -/

theorem skipToNextMechanic_noQueue (st : EngineState) (reason : String)
    (hq : st.queue = none) : skipToNextMechanic st reason = (st, []) := by
  unfold skipToNextMechanic
  rw [hq]

theorem skip_advance (st : EngineState) (q : QueueData) (m2 : MechanicEntry)
    (reason : String) (hq : st.queue = some q)
    (hm2 : q.mechanics.get? (q.currentIndex + 1) = some m2) :
    (skipToNextMechanic st reason).1.queue =
      some { mechanics := q.mechanics, currentIndex := q.currentIndex + 1,
             timer := some st.nextTimerId } ∧
    (skipToNextMechanic st reason).1.snapshot =
      some { mechanics := q.mechanics, currentIndex := q.currentIndex + 1 } ∧
    (skipToNextMechanic st reason).1.booking = st.booking ∧
    (skipToNextMechanic st reason).1.liveTimers =
      (clearTimer st q.timer).liveTimers ++ [st.nextTimerId] ∧
    (skipToNextMechanic st reason).2 =
      (match q.mechanics.get? q.currentIndex with
       | some m => [Event.withdrawFromMechanic m.id
           (if reason = "timeout" then "Time expired"
            else "Moved to next mechanic")]
       | none => []) ++
      [Event.offerToMechanic m2.id,
       Event.userQueueStatus "REQUESTING" (q.currentIndex + 1 + 1)
         q.mechanics.length] := by
  have hlt : q.currentIndex + 1 < q.mechanics.length := by
    by_contra hc
    rw [List.get?_eq_none.mpr (Nat.le_of_not_lt hc)] at hm2
    exact Option.noConfusion hm2
  have hm2g : q.mechanics[q.currentIndex + 1]? = some m2 := by
    simpa [List.get?_eq_getElem?] using hm2
  unfold skipToNextMechanic sendToNextMechanic startTimeout
  simp only [hq]
  simp [hm2g, Nat.not_le.mpr hlt, clearTimer_nextTimerId, clearTimer_booking,
    clearTimer_queue, clearTimer]
  cases q.timer <;> simp

theorem skip_exhaust (st : EngineState) (q : QueueData) (reason : String)
    (hq : st.queue = some q)
    (hlen : q.mechanics.length ≤ q.currentIndex + 1) :
    (skipToNextMechanic st reason).1.queue = none ∧
    (skipToNextMechanic st reason).1.snapshot = none ∧
    (skipToNextMechanic st reason).1.booking.status =
      BookingStatus.NO_MECHANIC_AVAILABLE ∧
    (skipToNextMechanic st reason).1.liveTimers =
      (clearTimer st q.timer).liveTimers ∧
    (skipToNextMechanic st reason).2 =
      (match q.mechanics.get? q.currentIndex with
       | some m => [Event.withdrawFromMechanic m.id
           (if reason = "timeout" then "Time expired"
            else "Moved to next mechanic")]
       | none => []) ++ [Event.userNoMechanic] := by
  unfold skipToNextMechanic sendToNextMechanic handleNoMechanicsAvailable
    cleanupQueue
  simp only [hq]
  simp [hlen, clearTimer_nextTimerId, clearTimer_booking, clearTimer_queue,
    clearTimer]

theorem handleMechanicReject_stale (st : EngineState) (q : QueueData)
    (m : MechanicEntry) (w reason : String) (hq : st.queue = some q)
    (hm : q.mechanics.get? q.currentIndex = some m) (hne : m.id ≠ w) :
    handleMechanicReject st w reason = (st, []) := by
  unfold handleMechanicReject
  simp only [hq, hm]
  rw [if_neg hne]

theorem handleMechanicReject_current (st : EngineState) (q : QueueData)
    (m : MechanicEntry) (reason : String) (hq : st.queue = some q)
    (hm : q.mechanics.get? q.currentIndex = some m) :
    handleMechanicReject st m.id reason =
      skipToNextMechanic
        { st with rejectLog := st.rejectLog ++ [(m.id, reason)] } reason := by
  unfold handleMechanicReject
  simp only [hq, hm]
  rw [if_pos trivial]

theorem fireTimer_dead (st : EngineState) (t2 : Nat)
    (h : t2 ∉ st.liveTimers) : fireTimer st t2 = (st, []) := by
  unfold fireTimer
  rw [if_neg h]


theorem skip_behavior (st0 : EngineState) (q : QueueData) (m : MechanicEntry)
    (reason : String) (t : Nat) (hq : st0.queue = some q)
    (hm : q.mechanics.get? q.currentIndex = some m)
    (ht : q.timer = some t) (hfresh : t < st0.nextTimerId) :
    (skipToNextMechanic st0 reason).2.head? =
      some (Event.withdrawFromMechanic m.id
        (if reason = "timeout" then "Time expired"
         else "Moved to next mechanic")) ∧
    t ∉ (skipToNextMechanic st0 reason).1.liveTimers ∧
    (∀ q1, (skipToNextMechanic st0 reason).1.queue = some q1 →
      q1.mechanics = q.mechanics ∧ q1.currentIndex = q.currentIndex + 1) ∧
    (∀ m2, q.mechanics.get? (q.currentIndex + 1) = some m2 →
      (skipToNextMechanic st0 reason).1.snapshot =
        some { mechanics := q.mechanics,
               currentIndex := q.currentIndex + 1 } ∧
      offerTargets (skipToNextMechanic st0 reason).2 = [m2.id]) ∧
    (q.mechanics.length ≤ q.currentIndex + 1 →
      (skipToNextMechanic st0 reason).1.queue = none ∧
      Event.userNoMechanic ∈ (skipToNextMechanic st0 reason).2) := by
  have hmg : q.mechanics[q.currentIndex]? = some m := by
    simpa [List.get?_eq_getElem?] using hm
  refine ⟨?_, ?_, ?_, ?_, ?_⟩
  · cases hnext : q.mechanics.get? (q.currentIndex + 1) with
    | some m2 =>
      rw [(skip_advance st0 q m2 reason hq hnext).2.2.2.2]
      simp [hmg]
    | none =>
      rw [(skip_exhaust st0 q reason hq (List.get?_eq_none.mp hnext)).2.2.2.2]
      simp [hmg]
  · cases hnext : q.mechanics.get? (q.currentIndex + 1) with
    | some m2 =>
      rw [(skip_advance st0 q m2 reason hq hnext).2.2.2.1]
      intro hc
      simp [ht, clearTimer, List.mem_append, List.mem_filter] at hc
      omega
    | none =>
      rw [(skip_exhaust st0 q reason hq (List.get?_eq_none.mp hnext)).2.2.2.1]
      intro hc
      simp [ht, clearTimer, List.mem_filter] at hc
  · cases hnext : q.mechanics.get? (q.currentIndex + 1) with
    | some m2 =>
      intro q1 hq1
      rw [(skip_advance st0 q m2 reason hq hnext).1] at hq1
      cases hq1
      exact ⟨rfl, rfl⟩
    | none =>
      intro q1 hq1
      rw [(skip_exhaust st0 q reason hq (List.get?_eq_none.mp hnext)).1] at hq1
      exact Option.noConfusion hq1
  · intro m2 hm2
    refine ⟨(skip_advance st0 q m2 reason hq hm2).2.1, ?_⟩
    rw [(skip_advance st0 q m2 reason hq hm2).2.2.2.2]
    simp [hmg, offerTargets]
  · intro hlen
    refine ⟨(skip_exhaust st0 q reason hq hlen).1, ?_⟩
    rw [(skip_exhaust st0 q reason hq hlen).2.2.2.2]
    simp [hmg]

/-- Claim C8: a reject from a non-current mechanic (and a fire of a
cancelled timer) is a silent no-op with no state change and no error to
the caller; a valid reject or timeout advance cancels the pending timer,
notifies the just-skipped mechanic first that the opportunity is
withdrawn, increments the cursor by exactly one, persists the snapshot at
the new cursor and offers to the new current mechanic — or runs the
exhaustion outcome when the new cursor is past the end. -/
theorem reject_timeout_behavior (st : EngineState) (q : QueueData)
    (m : MechanicEntry) (w reason : String) (t : Nat)
    (hq : st.queue = some q)
    (hm : q.mechanics.get? q.currentIndex = some m)
    (ht : q.timer = some t) (hfresh : t < st.nextTimerId) :
    (m.id ≠ w → handleMechanicReject st w reason = (st, [])) ∧
    (∀ t2, t2 ∉ st.liveTimers → fireTimer st t2 = (st, [])) ∧
    (handleMechanicReject st m.id reason).2.head? =
      some (Event.withdrawFromMechanic m.id
        (if reason = "timeout" then "Time expired"
         else "Moved to next mechanic")) ∧
    t ∉ (handleMechanicReject st m.id reason).1.liveTimers ∧
    (∀ q1, (handleMechanicReject st m.id reason).1.queue = some q1 →
      q1.mechanics = q.mechanics ∧ q1.currentIndex = q.currentIndex + 1) ∧
    (∀ m2, q.mechanics.get? (q.currentIndex + 1) = some m2 →
      (handleMechanicReject st m.id reason).1.snapshot =
        some { mechanics := q.mechanics,
               currentIndex := q.currentIndex + 1 } ∧
      offerTargets (handleMechanicReject st m.id reason).2 = [m2.id]) ∧
    (q.mechanics.length ≤ q.currentIndex + 1 →
      (handleMechanicReject st m.id reason).1.queue = none ∧
      Event.userNoMechanic ∈ (handleMechanicReject st m.id reason).2) := by
  have hrw := handleMechanicReject_current st q m reason hq hm
  have hb := skip_behavior
    { st with rejectLog := st.rejectLog ++ [(m.id, reason)] }
    q m reason t hq hm ht hfresh
  rw [hrw]
  exact ⟨fun hne => handleMechanicReject_stale st q m w reason hq hm hne,
         fun t2 h2 => fireTimer_dead st t2 h2,
         hb.1, hb.2.1, hb.2.2.1, hb.2.2.2.1, hb.2.2.2.2⟩

/-- Witness for `reject_timeout_behavior`: a valid reject by `A` on the
live `[A, B]` state withdraws the offer from `A` and offers to `B`. -/
theorem reject_timeout_behavior_witness :
    exStateAB.queue = some exQueueAB ∧
    (handleMechanicReject exStateAB "A" "busy").2.head? =
      some (Event.withdrawFromMechanic "A" "Moved to next mechanic") := by
  refine ⟨rfl, ?_⟩
  have h := (reject_timeout_behavior exStateAB exQueueAB exMechA "X" "busy" 0
    rfl (by decide) rfl (by decide)).2.2.1
  simpa using h

/-! ### Cursor invariants and termination bound -/

theorem startQueue_cursor_zero (st : EngineState) (ms : List MechanicEntry)
    (q1 : QueueData) (h : (startQueue st ms).1.queue = some q1) :
    q1.mechanics = ms ∧ q1.currentIndex = 0 ∧
    q1.currentIndex < q1.mechanics.length := by
  cases ms with
  | nil =>
    rw [show startQueue st [] = handleNoMechanicsAvailable st from by
      unfold startQueue; rfl] at h
    rw [(handleNoMechanicsAvailable_spec st).1] at h
    exact Option.noConfusion h
  | cons m0 ms' =>
    have hsend := sendToNextMechanic_offer
      { st with queue := some { mechanics := m0 :: ms', currentIndex := 0,
                                timer := none },
                snapshot := some { mechanics := m0 :: ms',
                                   currentIndex := 0 } }
      { mechanics := m0 :: ms', currentIndex := 0, timer := none } m0 rfl rfl
    have htmr := startTimeout_fresh
      { st with queue := some { mechanics := m0 :: ms', currentIndex := 0,
                                timer := none },
                snapshot := some { mechanics := m0 :: ms',
                                   currentIndex := 0 },
                currentMarker := some m0.id }
      { mechanics := m0 :: ms', currentIndex := 0, timer := none } rfl rfl
    unfold startQueue at h
    rw [if_neg (by simp)] at h
    simp only [hsend, htmr] at h
    cases h
    exact ⟨rfl, rfl, by simp⟩

theorem skipState_noQueue (st : EngineState) (hq : st.queue = none) :
    skipState st = st := by
  unfold skipState
  rw [skipToNextMechanic_noQueue st "timeout" hq]

theorem skipIter_noQueue :
    ∀ (n : Nat) (st : EngineState), st.queue = none → skipIter n st = st := by
  intro n
  induction n with
  | zero => intro st _; rfl
  | succ k ih =>
    intro st hq
    show skipIter k (skipState st) = st
    rw [skipState_noQueue st hq]
    exact ih st hq

theorem skipState_queue (st : EngineState) (q : QueueData)
    (hq : st.queue = some q) :
    (skipState st).queue =
      if q.mechanics.length ≤ q.currentIndex + 1 then none
      else some { mechanics := q.mechanics,
                  currentIndex := q.currentIndex + 1,
                  timer := some st.nextTimerId } := by
  by_cases hlen : q.mechanics.length ≤ q.currentIndex + 1
  · rw [if_pos hlen]
    exact (skip_exhaust st q "timeout" hq hlen).1
  · rw [if_neg hlen]
    obtain ⟨m2, hm2⟩ : ∃ m2,
        q.mechanics.get? (q.currentIndex + 1) = some m2 := by
      cases hg : q.mechanics.get? (q.currentIndex + 1) with
      | none => exact absurd (List.get?_eq_none.mp hg) hlen
      | some mx => exact ⟨mx, rfl⟩
    exact (skip_advance st q m2 "timeout" hq hm2).1

theorem skipIter_exhausts :
    ∀ (k : Nat) (st : EngineState) (q : QueueData), st.queue = some q →
      q.mechanics.length - q.currentIndex = k →
      (skipIter (k + 1) st).queue = none := by
  intro k
  induction k with
  | zero =>
    intro st q hq hk
    have hlen : q.mechanics.length ≤ q.currentIndex + 1 := by omega
    have h1 : (skipState st).queue = none := by
      unfold skipState
      exact (skip_exhaust st q "timeout" hq hlen).1
    simpa [skipIter] using h1
  | succ n ih =>
    intro st q hq hk
    show (skipIter (n + 1) (skipState st)).queue = none
    by_cases hlen : q.mechanics.length ≤ q.currentIndex + 1
    · have h1 : (skipState st).queue = none := by
        unfold skipState
        exact (skip_exhaust st q "timeout" hq hlen).1
      rw [skipIter_noQueue (n + 1) (skipState st) h1]
      exact h1
    · obtain ⟨m2, hm2⟩ : ∃ m2,
          q.mechanics.get? (q.currentIndex + 1) = some m2 := by
        cases hg : q.mechanics.get? (q.currentIndex + 1) with
        | none => exact absurd (List.get?_eq_none.mp hg) hlen
        | some mx => exact ⟨mx, rfl⟩
      have hq1 : (skipState st).queue =
          some { mechanics := q.mechanics,
                 currentIndex := q.currentIndex + 1,
                 timer := some st.nextTimerId } := by
        unfold skipState
        exact (skip_advance st q m2 "timeout" hq hm2).1
      exact ih (skipState st) _ hq1 (by simp; omega)

/-- Claim C9: a queue created by `startQueue` starts at cursor `0` with
`0 < len`; each advance moves the cursor up by exactly one (over the same
candidate list) and any surviving queue entry satisfies
`cursor < len(candidates)` (hence `0 ≤ cursor ≤ len` at every reachable
state); and from any state with `cursor ≤ len`, at most
`len - cursor + 1 ≤ len + 1` advances reach the terminal (destroyed)
queue. -/
theorem cursor_monotone_bounded (st : EngineState) (q : QueueData)
    (hq : st.queue = some q) (hb : q.currentIndex ≤ q.mechanics.length) :
    (∀ ms q1, (startQueue st ms).1.queue = some q1 →
      q1.currentIndex = 0 ∧ q1.currentIndex < q1.mechanics.length) ∧
    (∀ q1, (skipState st).queue = some q1 →
      q1.mechanics = q.mechanics ∧ q1.currentIndex = q.currentIndex + 1 ∧
      q1.currentIndex < q1.mechanics.length) ∧
    (skipIter (q.mechanics.length - q.currentIndex + 1) st).queue = none ∧
    q.mechanics.length - q.currentIndex + 1 ≤ q.mechanics.length + 1 := by
  refine ⟨?_, ?_, ?_, ?_⟩
  · intro ms q1 h
    have h0 := startQueue_cursor_zero st ms q1 h
    exact ⟨h0.2.1, h0.2.2⟩
  · intro q1 h1
    rw [skipState_queue st q hq] at h1
    by_cases hlen : q.mechanics.length ≤ q.currentIndex + 1
    · rw [if_pos hlen] at h1
      exact Option.noConfusion h1
    · rw [if_neg hlen] at h1
      cases h1
      exact ⟨rfl, rfl, by simpa using Nat.lt_of_not_le hlen⟩
  · exact skipIter_exhausts (q.mechanics.length - q.currentIndex) st q hq rfl
  · omega

/-- Witness for `cursor_monotone_bounded`: the `[A, B]` state at cursor
`0` is exhausted within three advances. -/
theorem cursor_monotone_bounded_witness :
    exStateAB.queue = some exQueueAB ∧
    exQueueAB.currentIndex ≤ exQueueAB.mechanics.length ∧
    (skipIter (exQueueAB.mechanics.length - exQueueAB.currentIndex + 1)
      exStateAB).queue = none := by
  refine ⟨rfl, by decide, ?_⟩
  exact (cursor_monotone_bounded exStateAB exQueueAB rfl (by decide)).2.2.1

/-! ### Claim C10: exhaustion outcome and status writes -/

/-- Live dispatch state for `[A]` over a booking that is still `PENDING`
(not yet `SEARCHING`). -/
def exStatePending : EngineState :=
  { queue := some exQueueA,
    booking := { status := BookingStatus.PENDING, mechanicId := none,
                 statusHistory := [] },
    snapshot := some { mechanics := [exMechA], currentIndex := 0 },
    currentMarker := some "A",
    liveTimers := [0],
    nextTimerId := 1,
    rejectLog := [] }

/-- Exhausted queue: cursor already equal to the candidate count. -/
def exQueueSpent : QueueData :=
  { mechanics := [exMechA], currentIndex := 1, timer := none }

/-- State whose queue cursor has just moved past the last candidate. -/
def exStateSpent : EngineState :=
  { queue := some exQueueSpent,
    booking := exBookingSearching,
    snapshot := some { mechanics := [exMechA], currentIndex := 1 },
    currentMarker := some "A",
    liveTimers := [],
    nextTimerId := 2,
    rejectLog := [] }

/-- Counterexample to claim C10: the success-path conditional update is
not restricted to `SEARCHING` records — on a `PENDING` booking the accept
by the current candidate matches and writes `PENDING → ACCEPTED`, a status
write outside the claimed `SEARCHING → ACCEPTED` / `SEARCHING →
NO_WORKER_AVAILABLE` set. -/
theorem pending_accept_write_cex :
    exStatePending.booking.status = BookingStatus.PENDING ∧
    exStatePending.booking.status ≠ BookingStatus.SEARCHING ∧
    (handleMechanicAccept exStatePending "A").2.2 = AcceptResult.success ∧
    (handleMechanicAccept exStatePending "A").1.booking.status =
      BookingStatus.ACCEPTED ∧
    (handleMechanicAccept exStatePending "A").1.booking.mechanicId =
      some "A" := by
  decide

/-- Claim C10 as amended: when the cursor reaches the end of the candidate
list, the engine marks the booking `NO_MECHANIC_AVAILABLE`, notifies the
requester, and destroys the queue entry; the engine's status writes are
`{PENDING, SEARCHING} → ACCEPTED` through the conditional accept updates
(which also record the assigned mechanic) and an unconditional write to
`NO_MECHANIC_AVAILABLE` on the exhaustion path (not guarded on the record
still being `SEARCHING`). -/
theorem engine_status_writes (st : EngineState) (q : QueueData)
    (hq : st.queue = some q)
    (hex : q.mechanics.length ≤ q.currentIndex) :
    (sendToNextMechanic st).1.booking.status =
      BookingStatus.NO_MECHANIC_AVAILABLE ∧
    (sendToNextMechanic st).1.queue = none ∧
    Event.userNoMechanic ∈ (sendToNextMechanic st).2 ∧
    (∀ b w note b1, tryAcceptUpdate b w note = some b1 →
      (b.status = BookingStatus.PENDING ∨
       b.status = BookingStatus.SEARCHING) ∧
      b1.status = BookingStatus.ACCEPTED ∧ b1.mechanicId = some w) ∧
    (∀ b w b1, directAcceptUpdate b w = some b1 →
      (b.status = BookingStatus.PENDING ∨
       b.status = BookingStatus.SEARCHING) ∧
      b1.status = BookingStatus.ACCEPTED) ∧
    (∀ st2, (handleNoMechanicsAvailable st2).1.booking.status =
      BookingStatus.NO_MECHANIC_AVAILABLE) := by
  rw [sendToNextMechanic_exhausted st q hq hex]
  have hs := handleNoMechanicsAvailable_spec st
  refine ⟨hs.2.2.1, hs.1, by rw [hs.2.2.2]; simp, ?_, ?_,
    fun st2 => (handleNoMechanicsAvailable_spec st2).2.2.1⟩
  · intro b w note b1 hupd
    have h0 := tryAcceptUpdate_some_iff b w note b1 hupd
    exact ⟨h0.2.2.1, h0.1, h0.2.1⟩
  · intro b w b1 hupd
    have h0 := directAcceptUpdate_some_iff b w b1 hupd
    exact ⟨h0.2.2.1, h0.1⟩

/-- Witness for `engine_status_writes`: exhausting the spent `[A]`
queue marks the booking `NO_MECHANIC_AVAILABLE`. -/
theorem engine_status_writes_witness :
    exStateSpent.queue = some exQueueSpent ∧
    (sendToNextMechanic exStateSpent).1.booking.status =
      BookingStatus.NO_MECHANIC_AVAILABLE := by
  refine ⟨rfl, ?_⟩
  exact (engine_status_writes exStateSpent exQueueSpent rfl (by decide)).1
